import Mathlib

/-!
Shallow embedding of `ai-sdk-dynamic-tools` (src/src/dynamic-tools.ts and the
`composeStepHandlers` module).

Modelling choices:
* A JavaScript object used as a tool set (`ToolSet`) is modelled as an
  insertion-ordered association list `List (String × Tool)`; JS guarantees key
  uniqueness, which appears as a `Nodup` hypothesis where the proofs need it.
  Tool names are ordinary (non integer-like) strings, for which `Object.keys`
  returns insertion order.
* The closure state of `dynamicTools` is `DTState`: the mutable `tools` object
  and the `pendingRefreshMessage : string | null` flag (`Option String`; JS
  truthiness makes both `null` and `""` falsy, which is modelled explicitly).
* The external collaborators (`refreshTools`, `onRefresh`) are oracles supplied
  per invocation in a `World`: `refreshTools` either rejects with an error or
  resolves to a replacement tool set; `onRefresh`, when configured, either
  throws or returns.  `onStepFinish` returns a `StepOutcome`: the trace of
  external calls it made, the closure state afterwards, and the error it
  propagated (if any) — a rejected promise still leaves the closure state
  behind, which the `state` field records.
-/

namespace DynamicTools

/-- A tool set: a JS object mapping tool names to opaque tool definitions,
modelled as an insertion-ordered association list. -/
abbrev ToolSet (Tool : Type) := List (String × Tool)

variable {Tool Step Err : Type}

/-- Models `Object.keys(ts)`: the keys in insertion order. -/
def objectKeys (ts : ToolSet Tool) : List String := ts.map Prod.fst

/-- Models `delete ts[k]`: remove the entry with key `k`, preserving the order of the
remaining entries. -/
def deleteKey (ts : ToolSet Tool) (k : String) : ToolSet Tool :=
  ts.filter (fun e => e.1 != k)

/-- Models the JS property write `ts[k] = v` — an existing key keeps its position and is
overwritten, a new key is appended. -/
def setKey (ts : ToolSet Tool) (k : String) (v : Tool) : ToolSet Tool :=
  if (objectKeys ts).contains k then
    ts.map (fun e => if e.1 == k then (k, v) else e)
  else
    ts ++ [(k, v)]

/-- Models `Object.assign(ts, fresh)`: copy every entry of `fresh`, in key order,
onto `ts`. -/
def objectAssign (ts fresh : ToolSet Tool) : ToolSet Tool :=
  fresh.foldl (fun acc e => setKey acc e.1 e.2) ts

/-- Models `for (const key of Object.keys(tools)) delete tools[key]`: the clear loop
of `onStepFinish` — the key list is snapshotted first, then each key deleted. -/
def clearAllKeys (ts : ToolSet Tool) : ToolSet Tool :=
  (objectKeys ts).foldl deleteKey ts

/-- The `refreshMessage` configuration value:
`string | ((toolNames: string[]) => string)`. -/
inductive RefreshMessage where
  | fixed (s : String)
  | func (f : List String → String)

/-- JS truthiness of the optional `config.refreshMessage` value: absent and
`""` are falsy, a function and a non-empty string are truthy. -/
def refreshMessageTruthy : Option RefreshMessage → Bool
  | none => false
  | some (RefreshMessage.fixed s) => s != ""
  | some (RefreshMessage.func _) => true

/-- Evaluate the template for a given post-refresh name sequence:
a fixed string is returned as-is, a function template is applied. -/
def resolveMessage : RefreshMessage → List String → String
  | RefreshMessage.fixed s, _ => s
  | RefreshMessage.func f, names => f names

/-- The `DynamicToolsConfig` record.  `shouldRefresh` is the caller's
predicate; `hasOnRefresh` records whether the optional `onRefresh` callback was
supplied (its behaviour lives in the `World` oracle); `refreshMessage` is the
optional notification template. -/
structure Config (Tool Step : Type) where
  tools : ToolSet Tool
  shouldRefresh : Step → Bool
  hasOnRefresh : Bool
  refreshMessage : Option RefreshMessage

/-- Oracle for one `onStepFinish` invocation's external calls:
`refreshResult` is what `await config.refreshTools()` produces (resolve or
reject), `onRefreshResult` is what `config.onRefresh(names)` does (return or
throw). -/
structure World (Tool Err : Type) where
  refreshResult : Except Err (ToolSet Tool)
  onRefreshResult : List String → Except Err Unit

/-- The closure state of one `dynamicTools` call: the mutable `tools` object
and `pendingRefreshMessage : string | null`. -/
structure DTState (Tool : Type) where
  tools : ToolSet Tool
  pendingRefreshMessage : Option String

/-- Observable external calls made by `onStepFinish`. -/
inductive Event where
  | refreshCall
  | onRefreshCall (toolNames : List String)
deriving DecidableEq

/-- Result of one `onStepFinish` invocation: the trace of external calls, the
closure state left behind, and the error propagated to the awaiter (if any). -/
structure StepOutcome (Tool Err : Type) where
  events : List Event
  state : DTState Tool
  error : Option Err

/-- Lines 64–69 of `onStepFinish`:
`if (config.refreshMessage) pendingRefreshMessage = typeof ... === "function" ?
config.refreshMessage(toolNames) : config.refreshMessage`.
The truthiness guard means an absent or empty-string template leaves the
pending flag untouched. -/
def armNotification (msg : Option RefreshMessage) (toolNames : List String)
    (pending : Option String) : Option String :=
  match msg with
  | none => pending
  | some (RefreshMessage.fixed s) => if s != "" then some s else pending
  | some (RefreshMessage.func f) => some (f toolNames)

/-- Lines 61–69 of `onStepFinish`, entered after the in-place swap:
`toolNames = Object.keys(tools); config.onRefresh?.(toolNames);` then the
notification arming.  If the observer throws, the error propagates with the
swap already committed and the pending flag untouched. -/
def afterSwap (cfg : Config Tool Step) (w : World Tool Err) (st : DTState Tool)
    (newTools : ToolSet Tool) : StepOutcome Tool Err :=
  let toolNames := objectKeys newTools
  if cfg.hasOnRefresh then
    match w.onRefreshResult toolNames with
    | Except.error e =>
        ⟨[Event.refreshCall, Event.onRefreshCall toolNames],
         ⟨newTools, st.pendingRefreshMessage⟩, some e⟩
    | Except.ok _ =>
        ⟨[Event.refreshCall, Event.onRefreshCall toolNames],
         ⟨newTools, armNotification cfg.refreshMessage toolNames st.pendingRefreshMessage⟩,
         none⟩
  else
    ⟨[Event.refreshCall],
     ⟨newTools, armNotification cfg.refreshMessage toolNames st.pendingRefreshMessage⟩,
     none⟩

/-- The `onStepFinish` closure (lines 50–70):
bail out when `shouldRefresh` is false; otherwise await `refreshTools()`
(a rejection propagates before any mutation); otherwise clear every key of
`tools`, `Object.assign` the fresh entries, and run the post-swap tail. -/
def onStepFinish (cfg : Config Tool Step) (w : World Tool Err)
    (st : DTState Tool) (step : Step) : StepOutcome Tool Err :=
  if !cfg.shouldRefresh step then
    ⟨[], st, none⟩
  else
    match w.refreshResult with
    | Except.error e => ⟨[Event.refreshCall], st, some e⟩
    | Except.ok freshTools =>
        afterSwap cfg w st (objectAssign (clearAllKeys st.tools) freshTools)

/-- A context message (role + content). -/
structure Message where
  role : String
  content : String
deriving DecidableEq

/-- The `prepareStep` closure body (lines 73–87): if the pending flag is falsy
(`null` or `""`) return `undefined` (no override); otherwise read and clear the
flag and return the input messages with one synthetic user message
`[system: <notification>]` appended.  Returns the override (if any) together
with the closure state afterwards. -/
def prepareStep (st : DTState Tool) (messages : List Message) :
    Option (List Message) × DTState Tool :=
  match st.pendingRefreshMessage with
  | none => (none, st)
  | some s =>
      if s = "" then (none, st)
      else
        (some (messages ++ [⟨"user", "[system: " ++ s ++ "]"⟩]),
         ⟨st.tools, none⟩)

/-- What the `dynamicTools` setup call returns, abstracted: the initial closure
state (tools is a shallow copy of the config's initial mapping, pending flag
null) and whether the result object includes a `prepareStep` property
(`...(prepareStep ? { prepareStep } : {})`, where `prepareStep` was built only
when `config.refreshMessage` is truthy). -/
structure SetupResult (Tool : Type) where
  state : DTState Tool
  hasPrepareStep : Bool

/-- The `dynamicTools` setup call (lines 43–90). -/
def dynamicTools (cfg : Config Tool Step) : SetupResult Tool :=
  ⟨⟨cfg.tools, none⟩, refreshMessageTruthy cfg.refreshMessage⟩

/-- Recursion of `composeStepHandlers`' loop, carrying the index of the next
handler; records `(index, argument)` for each handler actually invoked. -/
def composeAux (step : Step) :
    List (Step → Except Err Unit) → Nat → List (Nat × Step) × Except Err Unit
  | [], _ => ([], Except.ok ())
  | h :: rest, i =>
      match h step with
      | Except.error e => ([(i, step)], Except.error e)
      | Except.ok _ =>
          let r := composeAux step rest (i + 1)
          ((i, step) :: r.1, r.2)

/-- Application of `composeStepHandlers(...handlers)` to a step: run the handlers in
order, awaiting each; a failure short-circuits.  The first component is the
trace of invocations (handler index paired with the argument it received), the
second the overall result. -/
def composeStepHandlers (handlers : List (Step → Except Err Unit)) (step : Step) :
    List (Nat × Step) × Except Err Unit :=
  composeAux step handlers 0

/-! ### Concrete instances used by counterexamples and witnesses -/

/-- A configuration with two initial tools, an always-true predicate, no
observer and no template. -/
def cfgPlain : Config Nat Unit :=
  ⟨[("a", 1), ("b", 2)], fun _ => true, false, none⟩

/-- A configuration whose predicate always declines to refresh. -/
def cfgSkip : Config Nat Unit :=
  ⟨[("a", 1)], fun _ => false, false, none⟩

/-- A configuration with an observer configured. -/
def cfgObs : Config Nat Unit :=
  ⟨[("a", 1)], fun _ => true, true, none⟩

/-- The usage-example template: joins the post-refresh names with a comma. -/
def fmtNames : List String → String :=
  fun names => String.intercalate ", " names

/-- A configuration with a function template. -/
def cfgFuncMsg : Config Nat Unit :=
  ⟨[("a", 1)], fun _ => true, false, some (RefreshMessage.func fmtNames)⟩

/-- A configuration whose function template returns the empty string for every
name sequence. -/
def cfgEmptyFunc : Config Nat Unit :=
  ⟨[("a", 1)], fun _ => true, false, some (RefreshMessage.func (fun _ => ""))⟩

/-- A configuration whose template parameter is present but is the fixed empty
string. -/
def cfgEmptyFixed : Config Nat Unit :=
  ⟨[("a", 1)], fun _ => true, false, some (RefreshMessage.fixed "")⟩

/-- A world whose fetch resolves to a one-tool set. -/
def wEmptyFunc : World Nat Unit :=
  ⟨Except.ok [("x", 2)], fun _ => Except.ok ()⟩

/-- A world whose fetch resolves to the two-tool replacement `x, y`. -/
def wOk : World Nat Nat :=
  ⟨Except.ok [("x", 3), ("y", 4)], fun _ => Except.ok ()⟩

/-- A world whose fetch resolves to the one-tool replacement `z`. -/
def wOk2 : World Nat Nat :=
  ⟨Except.ok [("z", 9)], fun _ => Except.ok ()⟩

/-- A world whose fetch rejects with error 7. -/
def wErr : World Nat Nat :=
  ⟨Except.error 7, fun _ => Except.ok ()⟩

/-- A world whose fetch resolves but whose observer call throws error 5. -/
def wObsErr : World Nat Nat :=
  ⟨Except.ok [("x", 3), ("y", 4)], fun _ => Except.error 5⟩

/-- Closure state holding one tool and no pending notification. -/
def stA : DTState Nat := ⟨[("a", 1)], none⟩

/-- Closure state holding two tools and no pending notification. -/
def stAB : DTState Nat := ⟨[("a", 1), ("b", 2)], none⟩

/-- Closure state with an earlier armed, unconsumed notification. -/
def stPend : DTState Nat := ⟨[("a", 1)], some "old"⟩

/-- A handler that succeeds. -/
def hOkU : Unit → Except Nat Unit := fun _ => Except.ok ()

/-- A handler that throws error 3. -/
def hErrU : Unit → Except Nat Unit := fun _ => Except.error 3

/-! ### Lemmas about the clear-then-assign swap -/

theorem foldl_deleteKey_eq_nil (ks : List String) :
    ∀ ts : ToolSet Tool, (∀ e ∈ ts, e.1 ∈ ks) → ks.foldl deleteKey ts = [] := by
  induction ks with
  | nil =>
      intro ts h
      have : ts = [] := by
        cases ts with
        | nil => rfl
        | cons e ts => exact absurd (h e (List.mem_cons_self e ts)) (List.not_mem_nil e.1)
      simp [this]
  | cons k ks ih =>
      intro ts h
      rw [List.foldl_cons]
      apply ih
      intro e he
      have hmem : e ∈ ts ∧ (e.1 != k) = true := by
        simpa [deleteKey] using (List.mem_filter.mp he)
      have h1 : e.1 ∈ k :: ks := h e hmem.1
      have h2 : e.1 ≠ k := by simpa using hmem.2
      rcases List.mem_cons.mp h1 with h3 | h3
      · exact absurd h3 h2
      · exact h3

theorem clearAllKeys_eq_nil (ts : ToolSet Tool) : clearAllKeys ts = [] := by
  apply foldl_deleteKey_eq_nil
  intro e he
  exact List.mem_map_of_mem Prod.fst he

theorem setKey_append (acc : ToolSet Tool) (k : String) (v : Tool)
    (h : k ∉ objectKeys acc) : setKey acc k v = acc ++ [(k, v)] := by
  have hc : (objectKeys acc).contains k = false := by
    simpa using h
  unfold setKey
  rw [hc]
  simp

theorem objectKeys_cons (k : String) (v : Tool) (rest : ToolSet Tool) :
    objectKeys ((k, v) :: rest) = k :: objectKeys rest := by
  simp [objectKeys]

theorem objectAssign_append (fresh : ToolSet Tool) :
    ∀ acc : ToolSet Tool, (objectKeys fresh).Nodup →
      (∀ k ∈ objectKeys fresh, k ∉ objectKeys acc) →
      objectAssign acc fresh = acc ++ fresh := by
  induction fresh with
  | nil => intro acc _ _; simp [objectAssign]
  | cons e rest ih =>
      intro acc hnd hdisj
      obtain ⟨k, v⟩ := e
      rw [objectKeys_cons] at hnd hdisj
      have hk : k ∉ objectKeys acc := hdisj k (List.mem_cons_self k _)
      have hstep : objectAssign acc ((k, v) :: rest) = objectAssign (acc ++ [(k, v)]) rest := by
        simp [objectAssign, setKey_append acc k v hk]
      have hndk : k ∉ objectKeys rest := (List.nodup_cons.mp hnd).1
      have hnd2 : (objectKeys rest).Nodup := (List.nodup_cons.mp hnd).2
      have hdisj2 : ∀ j ∈ objectKeys rest, j ∉ objectKeys (acc ++ [(k, v)]) := by
        intro j hj hmem
        have hkeys2 : objectKeys (acc ++ [(k, v)]) = objectKeys acc ++ [k] := by
          simp [objectKeys]
        rw [hkeys2] at hmem
        rcases List.mem_append.mp hmem with hja | hjk
        · exact hdisj j (List.mem_cons_of_mem k hj) hja
        · have hjk2 : j = k := by simpa using hjk
          exact hndk (hjk2 ▸ hj)
      rw [hstep, ih (acc ++ [(k, v)]) hnd2 hdisj2, List.append_assoc]
      rfl

theorem objectAssign_nil (fresh : ToolSet Tool) (hnd : (objectKeys fresh).Nodup) :
    objectAssign ([] : ToolSet Tool) fresh = fresh := by
  have := objectAssign_append fresh [] hnd (by intro k _; simp [objectKeys])
  simpa using this

/-- The net effect of the clear loop followed by `Object.assign`: the registry
becomes exactly the replacement mapping (JS key uniqueness assumed). -/
theorem swap_total (ts fresh : ToolSet Tool) (hnd : (objectKeys fresh).Nodup) :
    objectAssign (clearAllKeys ts) fresh = fresh := by
  rw [clearAllKeys_eq_nil, objectAssign_nil fresh hnd]

/-! ### Unfolding lemmas for `onStepFinish` -/

theorem afterSwap_obs_absent (cfg : Config Tool Step) (w : World Tool Err)
    (st : DTState Tool) (nt : ToolSet Tool) (h : cfg.hasOnRefresh = false) :
    afterSwap cfg w st nt =
      ⟨[Event.refreshCall],
       ⟨nt, armNotification cfg.refreshMessage (objectKeys nt) st.pendingRefreshMessage⟩,
       none⟩ := by
  simp [afterSwap, h]

theorem afterSwap_obs_ok (cfg : Config Tool Step) (w : World Tool Err)
    (st : DTState Tool) (nt : ToolSet Tool) (h : cfg.hasOnRefresh = true)
    (hok : w.onRefreshResult (objectKeys nt) = Except.ok ()) :
    afterSwap cfg w st nt =
      ⟨[Event.refreshCall, Event.onRefreshCall (objectKeys nt)],
       ⟨nt, armNotification cfg.refreshMessage (objectKeys nt) st.pendingRefreshMessage⟩,
       none⟩ := by
  simp [afterSwap, h, hok]

theorem afterSwap_obs_err (cfg : Config Tool Step) (w : World Tool Err)
    (st : DTState Tool) (nt : ToolSet Tool) (e : Err) (h : cfg.hasOnRefresh = true)
    (herr : w.onRefreshResult (objectKeys nt) = Except.error e) :
    afterSwap cfg w st nt =
      ⟨[Event.refreshCall, Event.onRefreshCall (objectKeys nt)],
       ⟨nt, st.pendingRefreshMessage⟩, some e⟩ := by
  simp [afterSwap, h, herr]

theorem afterSwap_state_tools (cfg : Config Tool Step) (w : World Tool Err)
    (st : DTState Tool) (nt : ToolSet Tool) :
    (afterSwap cfg w st nt).state.tools = nt := by
  unfold afterSwap
  split
  · cases hob : w.onRefreshResult (objectKeys nt) <;> simp [hob]
  · rfl

theorem onStepFinish_trig (cfg : Config Tool Step) (w : World Tool Err)
    (st : DTState Tool) (step : Step) (fresh : ToolSet Tool)
    (htrig : cfg.shouldRefresh step = true)
    (hres : w.refreshResult = Except.ok fresh) :
    onStepFinish cfg w st step =
      afterSwap cfg w st (objectAssign (clearAllKeys st.tools) fresh) := by
  unfold onStepFinish
  rw [htrig, hres]
  rfl

/-- With JS key uniqueness of the replacement, the triggered, successfully
fetching path of `onStepFinish` is the post-swap tail on exactly the
replacement mapping. -/
theorem onStepFinish_swap (cfg : Config Tool Step) (w : World Tool Err)
    (st : DTState Tool) (step : Step) (fresh : ToolSet Tool)
    (htrig : cfg.shouldRefresh step = true)
    (hres : w.refreshResult = Except.ok fresh)
    (hnd : (objectKeys fresh).Nodup) :
    onStepFinish cfg w st step = afterSwap cfg w st fresh := by
  rw [onStepFinish_trig cfg w st step fresh htrig hres, swap_total st.tools fresh hnd]

/-! ### Claim theorems -/

/-- C1.  Total replacement: a triggered refresh whose fetch resolves to the
replacement mapping `fresh` leaves the registry holding exactly `fresh` — same
entries, same key sequence; an empty replacement empties the registry; with no
observer configured the call completes without error. -/
theorem total_replacement (cfg : Config Tool Step) (w : World Tool Err)
    (st : DTState Tool) (step : Step) (fresh : ToolSet Tool)
    (htrig : cfg.shouldRefresh step = true)
    (hres : w.refreshResult = Except.ok fresh)
    (hnd : (objectKeys fresh).Nodup) :
    (onStepFinish cfg w st step).state.tools = fresh ∧
    objectKeys (onStepFinish cfg w st step).state.tools = objectKeys fresh ∧
    (fresh = [] → (onStepFinish cfg w st step).state.tools = []) ∧
    (cfg.hasOnRefresh = false → (onStepFinish cfg w st step).error = none) := by
  rw [onStepFinish_swap cfg w st step fresh htrig hres hnd]
  refine ⟨afterSwap_state_tools cfg w st fresh, ?_, ?_, ?_⟩
  · rw [afterSwap_state_tools cfg w st fresh]
  · intro hnil
    rw [afterSwap_state_tools cfg w st fresh, hnil]
  · intro hobs
    rw [afterSwap_obs_absent cfg w st fresh hobs]

/-- C2.  Skip purity: when `shouldRefresh` returns false, `onStepFinish` makes
no external call (neither `refreshTools` nor `onRefresh`), leaves the closure
state — registry and pending notification — exactly as it was, and reports no
error. -/
theorem skip_purity (cfg : Config Tool Step) (w : World Tool Err)
    (st : DTState Tool) (step : Step)
    (hskip : cfg.shouldRefresh step = false) :
    onStepFinish cfg w st step = ⟨[], st, none⟩ := by
  unfold onStepFinish
  rw [hskip]
  rfl

/-- C5.  Refresh-fetch failure: when the triggered fetch rejects, the error
propagates out of `onStepFinish`, `refreshTools` was the only external call,
and the closure state — registry contents and pending notification — is
exactly the pre-call state (no partial clear, no arming). -/
theorem refresh_failure_untouched (cfg : Config Tool Step) (w : World Tool Err)
    (st : DTState Tool) (step : Step) (e : Err)
    (htrig : cfg.shouldRefresh step = true)
    (hres : w.refreshResult = Except.error e) :
    onStepFinish cfg w st step = ⟨[Event.refreshCall], st, some e⟩ := by
  unfold onStepFinish
  rw [htrig, hres]
  rfl

/-- Combined shape of a triggered, successfully fetching `onStepFinish` whose
observer is absent or returns normally. -/
theorem onStepFinish_ok_state (cfg : Config Tool Step) (w : World Tool Err)
    (st : DTState Tool) (step : Step) (fresh : ToolSet Tool)
    (htrig : cfg.shouldRefresh step = true)
    (hres : w.refreshResult = Except.ok fresh)
    (hnd : (objectKeys fresh).Nodup)
    (hobs : cfg.hasOnRefresh = false ∨ w.onRefreshResult (objectKeys fresh) = Except.ok ()) :
    (onStepFinish cfg w st step).state =
      ⟨fresh, armNotification cfg.refreshMessage (objectKeys fresh) st.pendingRefreshMessage⟩ ∧
    (onStepFinish cfg w st step).error = none := by
  rw [onStepFinish_swap cfg w st step fresh htrig hres hnd]
  cases hob : cfg.hasOnRefresh with
  | false =>
      rw [afterSwap_obs_absent cfg w st fresh hob]
      exact ⟨rfl, rfl⟩
  | true =>
      rcases hobs with h | h
      · rw [h] at hob
        cases hob
      · rw [afterSwap_obs_ok cfg w st fresh hob h]
        exact ⟨rfl, rfl⟩

/-- When the template resolves to a non-empty string, arming stores exactly the
resolved string, regardless of the previous pending value. -/
theorem armNotification_some (m : RefreshMessage) (names : List String)
    (pending : Option String) (hne : resolveMessage m names ≠ "") :
    armNotification (some m) names pending = some (resolveMessage m names) := by
  cases m with
  | fixed s =>
      have hs : (s != "") = true := by
        simpa [resolveMessage] using hne
      simp [armNotification, resolveMessage, hs]
  | func f => rfl

/-- C6.  Observer failure after commit: when the observer throws during a
triggered refresh, the swap has already committed — the registry holds exactly
the replacement mapping — the error propagates, and the pending notification is
exactly what it was before the call (arming did not run). -/
theorem observer_failure_after_commit (cfg : Config Tool Step) (w : World Tool Err)
    (st : DTState Tool) (step : Step) (fresh : ToolSet Tool) (e : Err)
    (htrig : cfg.shouldRefresh step = true)
    (hres : w.refreshResult = Except.ok fresh)
    (hnd : (objectKeys fresh).Nodup)
    (hobs : cfg.hasOnRefresh = true)
    (herr : w.onRefreshResult (objectKeys fresh) = Except.error e) :
    onStepFinish cfg w st step =
      ⟨[Event.refreshCall, Event.onRefreshCall (objectKeys fresh)],
       ⟨fresh, st.pendingRefreshMessage⟩, some e⟩ := by
  rw [onStepFinish_swap cfg w st step fresh htrig hres hnd,
      afterSwap_obs_err cfg w st fresh e hobs herr]

/-- C7.  Observer correctness: a triggered refresh with an observer configured
invokes `onRefresh` exactly once (one `onRefreshCall` event in the trace),
after the single `refreshTools` call, with the post-refresh key sequence in the
replacement mapping's insertion order — whether or not the observer throws. -/
theorem observer_called_once (cfg : Config Tool Step) (w : World Tool Err)
    (st : DTState Tool) (step : Step) (fresh : ToolSet Tool)
    (htrig : cfg.shouldRefresh step = true)
    (hres : w.refreshResult = Except.ok fresh)
    (hnd : (objectKeys fresh).Nodup)
    (hobs : cfg.hasOnRefresh = true) :
    (onStepFinish cfg w st step).events =
      [Event.refreshCall, Event.onRefreshCall (objectKeys fresh)] := by
  rw [onStepFinish_swap cfg w st step fresh htrig hres hnd]
  cases hob : w.onRefreshResult (objectKeys fresh) with
  | error e => rw [afterSwap_obs_err cfg w st fresh e hobs hob]
  | ok u =>
      cases u
      rw [afterSwap_obs_ok cfg w st fresh hobs hob]

/-- C9.  Last refresh wins: with a function template, a triggered refresh arms
the pending notification with exactly the value computed from that refresh's
replacement names, whatever armed-but-unconsumed value was there before; hence
after two triggered refreshes with no intervening `prepareStep`, the single
pending notification is the second refresh's value. -/
theorem pending_overwrite (cfg : Config Tool Step) (w1 w2 : World Tool Err)
    (st : DTState Tool) (s1 s2 : Step) (f : List String → String)
    (fresh1 fresh2 : ToolSet Tool) (p : String)
    (hmsg : cfg.refreshMessage = some (RefreshMessage.func f))
    (ht1 : cfg.shouldRefresh s1 = true) (ht2 : cfg.shouldRefresh s2 = true)
    (hr1 : w1.refreshResult = Except.ok fresh1)
    (hr2 : w2.refreshResult = Except.ok fresh2)
    (hnd1 : (objectKeys fresh1).Nodup) (hnd2 : (objectKeys fresh2).Nodup)
    (hobs : cfg.hasOnRefresh = false)
    (_hp : st.pendingRefreshMessage = some p) :
    (onStepFinish cfg w1 st s1).state.pendingRefreshMessage = some (f (objectKeys fresh1)) ∧
    (onStepFinish cfg w2 (onStepFinish cfg w1 st s1).state s2).state.pendingRefreshMessage
      = some (f (objectKeys fresh2)) := by
  rw [onStepFinish_swap cfg w1 st s1 fresh1 ht1 hr1 hnd1,
      afterSwap_obs_absent cfg w1 st fresh1 hobs]
  refine ⟨by simp [armNotification, hmsg], ?_⟩
  rw [onStepFinish_swap cfg w2 _ s2 fresh2 ht2 hr2 hnd2,
      afterSwap_obs_absent cfg w2 _ fresh2 hobs]
  simp [armNotification, hmsg]

/-- C3 (amended).  One-shot notification: after a triggered refresh whose
template resolves to a non-empty string, the next `prepareStep` call returns an
override equal to the input message sequence with exactly one user-role message
`[system: <text>]` appended and clears the pending flag; every further
`prepareStep` call before another refresh returns no override and leaves the
state unchanged. -/
theorem notification_one_shot (cfg : Config Tool Step) (w : World Tool Err)
    (st : DTState Tool) (step : Step) (fresh : ToolSet Tool) (m : RefreshMessage)
    (htrig : cfg.shouldRefresh step = true)
    (hres : w.refreshResult = Except.ok fresh)
    (hnd : (objectKeys fresh).Nodup)
    (hmsg : cfg.refreshMessage = some m)
    (hobs : cfg.hasOnRefresh = false ∨ w.onRefreshResult (objectKeys fresh) = Except.ok ())
    (hne : resolveMessage m (objectKeys fresh) ≠ "") :
    ∀ messages : List Message,
      prepareStep (onStepFinish cfg w st step).state messages =
        (some (messages ++
          [⟨"user", "[system: " ++ resolveMessage m (objectKeys fresh) ++ "]"⟩]),
         (⟨fresh, none⟩ : DTState Tool)) ∧
      ∀ messages2 : List Message,
        prepareStep (⟨fresh, none⟩ : DTState Tool) messages2 =
          (none, (⟨fresh, none⟩ : DTState Tool)) := by
  obtain ⟨hstate, -⟩ :=
    onStepFinish_ok_state cfg w st step fresh htrig hres hnd hobs
  rw [hstate, hmsg]
  intro messages
  rw [armNotification_some m (objectKeys fresh) st.pendingRefreshMessage hne]
  refine ⟨?_, fun messages2 => rfl⟩
  simp [prepareStep, hne]

/-- C3 counterexample: with the empty-string-returning function template, the
setup includes `prepareStep`, the step triggers a refresh that completes
without error, and yet the `prepareStep` call right after the refresh returns
no override (and no message is ever appended). -/
theorem notification_one_shot_cex :
    (dynamicTools cfgEmptyFunc).hasPrepareStep = true ∧
    cfgEmptyFunc.shouldRefresh () = true ∧
    (onStepFinish cfgEmptyFunc wEmptyFunc (dynamicTools cfgEmptyFunc).state ()).error = none ∧
    (prepareStep
      (onStepFinish cfgEmptyFunc wEmptyFunc (dynamicTools cfgEmptyFunc).state ()).state
      []).1 = none := by
  refine ⟨rfl, rfl, ?_, ?_⟩ <;> rfl

/-- C4 (amended).  The setup result includes `prepareStep` iff the configured
`refreshMessage` is truthy: a function template, or a fixed non-empty string;
in particular an absent template omits the hook, but so does a present
empty-string template. -/
theorem hasPrepareStep_iff (cfg : Config Tool Step) :
    ((dynamicTools cfg).hasPrepareStep = true ↔
      (∃ f, cfg.refreshMessage = some (RefreshMessage.func f)) ∨
      (∃ s, cfg.refreshMessage = some (RefreshMessage.fixed s) ∧ s ≠ "")) ∧
    (cfg.refreshMessage = none → (dynamicTools cfg).hasPrepareStep = false) := by
  constructor
  · cases hm : cfg.refreshMessage with
    | none => simp [dynamicTools, refreshMessageTruthy, hm]
    | some m =>
        cases m with
        | fixed s => simp [dynamicTools, refreshMessageTruthy, hm]
        | func f => simp [dynamicTools, refreshMessageTruthy, hm]
  · intro h
    simp [dynamicTools, refreshMessageTruthy, h]

/-- C4 counterexample: `refreshMessage` is present, yet the setup result omits
`prepareStep` — presence of the parameter is not the sole determinant; JS
truthiness is what the code tests, and the empty string is falsy. -/
theorem hasPrepareStep_cex :
    cfgEmptyFixed.refreshMessage = some (RefreshMessage.fixed "") ∧
    (dynamicTools cfgEmptyFixed).hasPrepareStep = false := by
  exact ⟨rfl, rfl⟩

/-- C10.  An empty resolved notification is never delivered: if the template
resolves to `""` for the post-refresh names (a function returning `""`, or the
fixed empty string — which never even arms), then after a triggered refresh
`prepareStep` returns no override and leaves its state unchanged, exactly as if
no refresh had occurred. -/
theorem empty_notification_not_delivered (cfg : Config Tool Step) (w : World Tool Err)
    (st : DTState Tool) (step : Step) (fresh : ToolSet Tool) (m : RefreshMessage)
    (htrig : cfg.shouldRefresh step = true)
    (hres : w.refreshResult = Except.ok fresh)
    (hnd : (objectKeys fresh).Nodup)
    (hmsg : cfg.refreshMessage = some m)
    (hobs : cfg.hasOnRefresh = false ∨ w.onRefreshResult (objectKeys fresh) = Except.ok ())
    (hempty : resolveMessage m (objectKeys fresh) = "")
    (hp : st.pendingRefreshMessage = none) :
    ∀ messages : List Message,
      prepareStep (onStepFinish cfg w st step).state messages =
        (none, (onStepFinish cfg w st step).state) := by
  obtain ⟨hstate, -⟩ :=
    onStepFinish_ok_state cfg w st step fresh htrig hres hnd hobs
  rw [hstate, hmsg, hp]
  intro messages
  cases m with
  | fixed s =>
      have hs : s = "" := by simpa [resolveMessage] using hempty
      simp [armNotification, hs, prepareStep]
  | func f =>
      have hf : f (objectKeys fresh) = "" := by simpa [resolveMessage] using hempty
      simp [armNotification, hf, prepareStep]

/-! ### Lemmas about the handler composer -/

theorem composeAux_all_ok (step : Step) :
    ∀ (handlers : List (Step → Except Err Unit)) (i : Nat),
      (∀ h ∈ handlers, h step = Except.ok ()) →
      composeAux step handlers i =
        ((List.range' i handlers.length).map (fun j => (j, step)), Except.ok ()) := by
  intro handlers
  induction handlers with
  | nil => intro i _; simp [composeAux]
  | cons h rest ih =>
      intro i hall
      have hh : h step = Except.ok () := hall h (List.mem_cons_self h rest)
      have hrest : ∀ g ∈ rest, g step = Except.ok () :=
        fun g hg => hall g (List.mem_cons_of_mem h hg)
      rw [List.length_cons, List.range'_succ]
      simp [composeAux, hh, ih (i + 1) hrest]

theorem composeAux_error (step : Step) (h : Step → Except Err Unit) (e : Err)
    (post : List (Step → Except Err Unit)) (hh : h step = Except.error e) :
    ∀ (pre : List (Step → Except Err Unit)) (i : Nat),
      (∀ g ∈ pre, g step = Except.ok ()) →
      composeAux step (pre ++ h :: post) i =
        ((List.range' i (pre.length + 1)).map (fun j => (j, step)), Except.error e) := by
  intro pre
  induction pre with
  | nil =>
      intro i _
      rw [List.length_nil, List.range'_succ]
      simp [composeAux, hh]
  | cons g rest ih =>
      intro i hall
      have hg : g step = Except.ok () := hall g (List.mem_cons_self g rest)
      have hrest : ∀ g2 ∈ rest, g2 step = Except.ok () :=
        fun g2 hg2 => hall g2 (List.mem_cons_of_mem g hg2)
      rw [List.cons_append, List.length_cons]
      rw [Nat.add_right_comm rest.length 1 1, List.range'_succ]
      simp [composeAux, hg, ih (i + 1) hrest]

/-- C8.  Composer ordering and short-circuit: with zero handlers the composed
handler succeeds and invokes nothing; when every handler succeeds, each is
invoked exactly once, in list order, with the very same step value; when the
handlers split as `pre ++ h :: post` with `pre` all succeeding and `h`
failing, exactly the handlers up to and including `h` are invoked (in order,
each with the same step value), none of `post` runs, and the composed handler
fails with `h`'s error. -/
theorem composer_spec (Step Err : Type) (step : Step) :
    (composeStepHandlers ([] : List (Step → Except Err Unit)) step =
      ([], Except.ok ())) ∧
    (∀ handlers : List (Step → Except Err Unit),
      (∀ h ∈ handlers, h step = Except.ok ()) →
      composeStepHandlers handlers step =
        ((List.range handlers.length).map (fun j => (j, step)), Except.ok ())) ∧
    (∀ (pre post : List (Step → Except Err Unit)) (h : Step → Except Err Unit) (e : Err),
      (∀ g ∈ pre, g step = Except.ok ()) → h step = Except.error e →
      composeStepHandlers (pre ++ h :: post) step =
        ((List.range (pre.length + 1)).map (fun j => (j, step)), Except.error e)) := by
  refine ⟨rfl, ?_, ?_⟩
  · intro handlers hall
    rw [composeStepHandlers, composeAux_all_ok step handlers 0 hall, List.range_eq_range']
  · intro pre post h e hall hh
    rw [composeStepHandlers, composeAux_error step h e post hh pre 0 hall,
        List.range_eq_range']

/-! ### Witnesses -/

/-- C1 witness: initial `{a, b}`, replacement `{x, y}` — after the triggered
refresh the registry is exactly `{x, y}` and the call reports no error. -/
theorem total_replacement_witness :
    (onStepFinish cfgPlain wOk stAB ()).state.tools = [("x", 3), ("y", 4)] ∧
    (onStepFinish cfgPlain wOk stAB ()).error = none :=
  ⟨(total_replacement cfgPlain wOk stAB () [("x", 3), ("y", 4)] rfl rfl (by decide)).1,
   (total_replacement cfgPlain wOk stAB () [("x", 3), ("y", 4)] rfl rfl (by decide)).2.2.2 rfl⟩

/-- C2 witness: with an always-false predicate, `onStepFinish` makes no call,
keeps the state, and reports no error. -/
theorem skip_purity_witness :
    onStepFinish cfgSkip wOk stA () = ⟨[], stA, none⟩ :=
  skip_purity cfgSkip wOk stA () rfl

/-- C3 witness: after a triggered refresh to `{x, y}` with the comma-joining
template, the next `prepareStep` appends exactly `[system: x, y]` as a user
message and clears the flag; the call after that returns no override. -/
theorem notification_one_shot_witness :
    (prepareStep (onStepFinish cfgFuncMsg wOk stA ()).state [⟨"user", "hello"⟩] =
      (some [⟨"user", "hello"⟩, ⟨"user", "[system: x, y]"⟩],
       (⟨[("x", 3), ("y", 4)], none⟩ : DTState Nat)) ∧
     ∀ messages2 : List Message,
       prepareStep (⟨[("x", 3), ("y", 4)], none⟩ : DTState Nat) messages2 =
         (none, (⟨[("x", 3), ("y", 4)], none⟩ : DTState Nat))) :=
  notification_one_shot cfgFuncMsg wOk stA () [("x", 3), ("y", 4)]
    (RefreshMessage.func fmtNames) rfl rfl (by decide) rfl (Or.inl rfl)
    (by decide) [⟨"user", "hello"⟩]

/-- C4 witness: with no template configured, the setup omits `prepareStep`. -/
theorem hasPrepareStep_iff_witness :
    (dynamicTools cfgPlain).hasPrepareStep = false :=
  (hasPrepareStep_iff cfgPlain).2 rfl

/-- C5 witness: a rejected fetch leaves state `{a, b}` untouched and
propagates error 7 after the single `refreshTools` call. -/
theorem refresh_failure_untouched_witness :
    onStepFinish cfgPlain wErr stAB () = ⟨[Event.refreshCall], stAB, some 7⟩ :=
  refresh_failure_untouched cfgPlain wErr stAB () 7 rfl rfl

/-- C6 witness: the observer throws error 5 after the swap to `{x, y}` has
committed; the pending flag is unchanged. -/
theorem observer_failure_after_commit_witness :
    onStepFinish cfgObs wObsErr stA () =
      ⟨[Event.refreshCall, Event.onRefreshCall ["x", "y"]],
       ⟨[("x", 3), ("y", 4)], none⟩, some 5⟩ :=
  observer_failure_after_commit cfgObs wObsErr stA () [("x", 3), ("y", 4)] 5
    rfl rfl (by decide) rfl rfl

/-- C7 witness: the observer is invoked exactly once, with `["x", "y"]`. -/
theorem observer_called_once_witness :
    (onStepFinish cfgObs wObsErr stA ()).events =
      [Event.refreshCall, Event.onRefreshCall ["x", "y"]] :=
  observer_called_once cfgObs wObsErr stA () [("x", 3), ("y", 4)]
    rfl rfl (by decide) rfl

/-- C8 witness: `compose(ok, throws, ok)` invokes handlers 0 and 1 (each with
the same step value), skips handler 2, and rejects with error 3. -/
theorem composer_spec_witness :
    composeStepHandlers [hOkU, hErrU, hOkU] () =
      ((List.range 2).map (fun j => (j, ())), Except.error 3) :=
  (composer_spec Unit Nat ()).2.2 [hOkU] [hOkU] hErrU 3
    (by intro g hg; rw [List.mem_singleton] at hg; rw [hg]; rfl) rfl

/-- C9 witness: starting with the armed value "old", a first refresh to
`{x, y}` arms "x, y", and a second refresh to `{z}` overwrites it with "z". -/
theorem pending_overwrite_witness :
    (onStepFinish cfgFuncMsg wOk stPend ()).state.pendingRefreshMessage = some "x, y" ∧
    (onStepFinish cfgFuncMsg wOk2
        (onStepFinish cfgFuncMsg wOk stPend ()).state ()).state.pendingRefreshMessage
      = some "z" :=
  pending_overwrite cfgFuncMsg wOk wOk2 stPend () () fmtNames
    [("x", 3), ("y", 4)] [("z", 9)] "old"
    rfl rfl rfl rfl rfl (by decide) (by decide) rfl rfl

/-- C10 witness: with the empty-string-returning template, the `prepareStep`
call after a completed refresh returns no override and keeps its state. -/
theorem empty_notification_not_delivered_witness :
    prepareStep (onStepFinish cfgEmptyFunc wEmptyFunc stA ()).state [⟨"user", "hello"⟩] =
      (none, (onStepFinish cfgEmptyFunc wEmptyFunc stA ()).state) :=
  empty_notification_not_delivered cfgEmptyFunc wEmptyFunc stA () [("x", 2)]
    (RefreshMessage.func (fun _ => "")) rfl rfl (by decide) rfl (Or.inl rfl)
    rfl rfl [⟨"user", "hello"⟩]

end DynamicTools
